import Mathlib

/-
Verification of the reference-resolution core of jsonnetize
(cmd/jsonnetize/main.go).

The program walks a tree of kustomization manifests, classifies each
reference string (non-local locator / local directory / local templated
file / local literal file), replicates local files into a mirrored output
tree (rendering templated sources through an external jsonnet process),
and rewrites each manifest so its three reference lists point at the
replicated artifacts.

The embedding below translates the Go source function by function:
  - filepath.Clean / Join / Dir / IsAbs are reimplemented for the unix
    separator, following the lexical algorithm of the Go standard library;
  - net/url scheme detection follows url.Parse getScheme (letters, then
    digits + - . , terminated by a colon; a colon first is a parse error;
    any other byte means no scheme);
  - the filesystem is a finite map of directories and regular files; the
    effect trace (directory creation, byte copies, renderer invocations,
    file creation) is threaded explicitly, and errors carry the state at
    the point of failure, matching the fact that filesystem effects
    performed before an error persist;
  - the external jsonnet renderer is an oracle in the environment: given
    source and destination path it either fails (non-zero exit) or yields
    the rendered content;
  - yaml (un)marshalling of types.Kustomization is abstracted: manifest
    files store a structured Kustomization value (the three lists the
    program rewrites), other files store opaque bytes;
  - the recursion of processKustomization into subdirectories is made
    total with an explicit fuel parameter (structural recursion on Nat);
    fuel exhaustion is an error, so theorems conditioned on success are
    unaffected.
Strings are modelled by Lean String (a list of characters); the paths in
all claims are ASCII, where Go byte indices and character indices agree.
-/

/-- True when the character list suf is a suffix of l (Go strings.HasSuffix
on character lists). -/
def listHasSuffix (l suf : List Char) : Bool :=
  decide (l.drop (l.length - suf.length) = suf)

/-- Go strings.HasSuffix for Lean strings. -/
def goHasSuffix (s suf : String) : Bool :=
  listHasSuffix s.data suf.data

/-- Splitting a character list at the slash separator; acc holds the
characters of the current component in reverse. Mirrors strings.Split
with separator "/". -/
def splitSlashAux : List Char → List Char → List String
  | [], acc => [String.mk acc.reverse]
  | c :: rest, acc =>
    if c = '/' then String.mk acc.reverse :: splitSlashAux rest []
    else splitSlashAux rest (c :: acc)

/-- The slash-separated components of a path string. -/
def splitSlash (s : String) : List String :=
  splitSlashAux s.data []

/-- One step of the element stack of filepath.Clean: empty and dot
components vanish, dotdot pops a previous normal component (or survives
at the head of an unrooted path, or vanishes at the root of a rooted
path), and any other component is pushed. The stack is kept reversed
(most recent component first). -/
def cleanPush (rooted : Bool) (stack : List String) (comp : String) : List String :=
  if comp = "" ∨ comp = "." then stack
  else if comp = ".." then
    match stack with
    | top :: rest => if top = ".." then comp :: top :: rest else rest
    | [] => if rooted then [] else [".."]
  else comp :: stack

/-- Go filepath.IsAbs for the unix separator: the path starts with a
slash. -/
def goIsAbs (path : String) : Bool :=
  match path.data with
  | '/' :: _ => true
  | _ => false

/-- Joining path components with the unix separator (Go strings.Join with
separator "/"). -/
def joinSep : List String → String
  | [] => ""
  | [a] => a
  | a :: b :: rest => a ++ "/" ++ joinSep (b :: rest)

/-- Go filepath.Clean for the unix separator: split at slashes, process
the components through the element stack, and reassemble, restoring the
leading slash of a rooted path; an empty result is "." (or "/" when
rooted). -/
def goClean (path : String) : String :=
  if path = "" then "."
  else
    let rooted := goIsAbs path
    let stack := (splitSlash path).foldl (cleanPush rooted) []
    let body := joinSep stack.reverse
    if body = "" then (if rooted then "/" else ".")
    else (if rooted then "/" ++ body else body)

/-- Go filepath.Join: the first non-empty element and everything after it
are joined with the separator and cleaned; all-empty input gives "". -/
def goJoinList : List String → String
  | [] => ""
  | e :: rest => if e = "" then goJoinList rest else goClean (joinSep (e :: rest))

/-- Two-argument filepath.Join, the form the program uses. -/
def goJoin (a b : String) : String :=
  goJoinList [a, b]

/-- Three-argument filepath.Join, used by Jsonnetizer.QualifyOutput. -/
def goJoin3 (a b c : String) : String :=
  goJoinList [a, b, c]

/-- Go filepath.Dir for the unix separator: everything up to and
including the final slash, cleaned; a path without a slash gives ".". -/
def goDir (path : String) : String :=
  goClean (String.mk (path.data.reverse.dropWhile (fun c => c ≠ '/')).reverse)

/-- Lower-casing of an ASCII character, as Go applies to a parsed URL
scheme. -/
def lowerChar (c : Char) : Char :=
  if 'A' ≤ c ∧ c ≤ 'Z' then Char.ofNat (c.toNat + 32) else c

/-- The scheme scanner of Go url.Parse (getScheme): scan from the start;
letters continue; digits and + - . continue unless first (then the string
has no scheme); a colon first is a parse error, a colon later ends the
scheme; any other character means the string has no scheme. Returns the
length of the scheme when one is found. -/
def getSchemeAux : List Char → Nat → Except Unit (Option Nat)
  | [], _ => .ok none
  | c :: rest, i =>
    if ('a' ≤ c ∧ c ≤ 'z') ∨ ('A' ≤ c ∧ c ≤ 'Z') then getSchemeAux rest (i + 1)
    else if ('0' ≤ c ∧ c ≤ '9') ∨ c = '+' ∨ c = '-' ∨ c = '.' then
      (if i = 0 then .ok none else getSchemeAux rest (i + 1))
    else if c = ':' then (if i = 0 then .error () else .ok (some i))
    else .ok none

/-- The scheme of a string as url.Parse reports it: error on a malformed
scheme, "" when there is none, otherwise the lower-cased scheme text.
Parse failures after scheme extraction (control characters in the host)
are not modelled; no path in the claims contains such characters. -/
def urlParseScheme (s : String) : Except Unit String :=
  match getSchemeAux s.data 0 with
  | .error e => .error e
  | .ok none => .ok ""
  | .ok (some i) => .ok (String.mk ((s.data.take i).map lowerChar))

/-- isLocalFile from main.go: a string is a local file when url.Parse
succeeds and yields an empty or file scheme. -/
def isLocalFile (path : String) : Bool :=
  match urlParseScheme path with
  | .error _ => false
  | .ok scheme => scheme = "" || scheme = "file"

/-- Go strings.LastIndex: the index of the last occurrence of sub in s,
or -1 when there is none. -/
def stringLastIndex (s sub : String) : Int :=
  match (((List.range (s.data.length - sub.data.length + 1)).filter
      (fun i => decide ((s.data.drop i).take sub.data.length = sub.data))).getLast?) with
  | some i => (i : Int)
  | none => -1

/-- isJsonnetFile from main.go, verbatim: the last occurrence of
".jsonnet" sits exactly 8 characters before the end. Note that for a
7-character path with no occurrence both sides are -1. -/
def isJsonnetFile (path : String) : Bool :=
  decide (stringLastIndex path ".jsonnet" = (path.data.length : Int) - 8)

/-- The three reference lists of sigs.k8s.io/kustomize types.Kustomization
that the program rewrites. A nil Go slice is the empty list. Fields the
program never touches are omitted. -/
structure Kustomization where
  resources : List String
  generators : List String
  transformers : List String
deriving DecidableEq

/-- Contents of a regular file: opaque bytes, or a manifest holding a
structured Kustomization (abstracting its yaml encoding). -/
inductive Content where
  | raw (data : List Nat)
  | kust (k : Kustomization)
deriving DecidableEq

/-- The filesystem: the set of existing directories and a map from paths
to regular-file contents. Paths are stored in the cleaned form the
program computes through filepath.Join. -/
structure FS where
  dirs : List String
  files : List (String × Content)
deriving DecidableEq

/-- What os.Stat reports about an existing path. -/
structure StatInfo where
  isDir : Bool
  isRegular : Bool
deriving DecidableEq

/-- Externally visible filesystem and subprocess effects, in order. -/
inductive Event where
  | mkdirAll (path : String)
  | render (src dst : String)
  | copy (src dst : String)
  | create (path : String)
deriving DecidableEq

/-- The mutable world threaded through resolution: the filesystem plus
the ordered effect trace. -/
structure St where
  fs : FS
  events : List Event
deriving DecidableEq

/-- The external jsonnet renderer: given the source template path and the
destination path it either fails (non-zero exit) or produces the rendered
contents that the process writes at the destination. -/
structure Env where
  render : String → String → Except String Content

/-- The Jsonnetizer configuration struct from main.go. -/
structure Jsonnetizer where
  Base : String
  Output : String

/-- Jsonnetizer.QualifyOutput: filepath.Join(j.Output, root, path). -/
def Jsonnetizer.QualifyOutput (j : Jsonnetizer) (root path : String) : String :=
  goJoin3 j.Output root path

def FS.isFile (fs : FS) (p : String) : Bool :=
  fs.files.any (fun f => f.1 = p)

/-- Directory existence; the working directory "." and the root "/"
always exist. -/
def FS.isDir (fs : FS) (p : String) : Bool :=
  p = "." || p = "/" || fs.dirs.contains p

/-- os.Stat (and, symlinks being absent from the model, os.Lstat). -/
def FS.stat (fs : FS) (p : String) : Except String StatInfo :=
  if fs.isFile p then .ok { isDir := false, isRegular := true }
  else if fs.isDir p then .ok { isDir := true, isRegular := false }
  else .error ("lstat " ++ p ++ ": no such file or directory")

/-- ioutil.ReadFile / os.Open of a regular file. -/
def FS.readFile (fs : FS) (p : String) : Except String Content :=
  match fs.files.find? (fun f => f.1 = p) with
  | some f => .ok f.2
  | none => .error ("open " ++ p ++ ": no such file or directory")

/-- Creating or truncating the regular file at p with content c. -/
def FS.setFile (fs : FS) (p : String) (c : Content) : FS :=
  { fs with files := (p, c) :: fs.files.filter (fun f => f.1 ≠ p) }

def St.writeFile (s : St) (p : String) (c : Content) : St :=
  { s with fs := s.fs.setFile p c }

def St.addEvent (s : St) (e : Event) : St :=
  { s with events := s.events ++ [e] }

/-- The directory p together with its ancestors, nearest first, stopping
at "." or "/" (which always exist); computed with fuel since goDir
shortens its argument. -/
def parentChain : Nat → String → List String
  | 0, _ => []
  | n + 1, p => if p = "." || p = "/" || p = "" then [] else p :: parentChain n (goDir p)

def mkdirChain (p : String) : List String :=
  parentChain (p.data.length + 1) p

/-- os.MkdirAll: creates the directory and all missing ancestors; fails
when an ancestor already exists as a regular file. -/
def St.mkdirAll (s : St) (dir : String) : Except (String × St) St :=
  if (mkdirChain dir).any (fun p => s.fs.isFile p) then
    .error ("mkdir " ++ dir ++ ": not a directory", s)
  else
    .ok { fs := { dirs := mkdirChain dir ++ s.fs.dirs, files := s.fs.files },
          events := s.events ++ [Event.mkdirAll dir] }

/-- os.Create: fails on an existing directory or when the parent
directory does not exist; otherwise truncates the file. Note that it
never creates intermediate directories. -/
def St.create (s : St) (p : String) : Except (String × St) St :=
  if s.fs.isDir p then .error ("open " ++ p ++ ": is a directory", s)
  else if !(s.fs.isDir (goDir p)) then
    .error ("open " ++ p ++ ": no such file or directory", s)
  else
    .ok { fs := s.fs.setFile p (Content.raw []),
          events := s.events ++ [Event.create p] }

/-- yaml.Unmarshal into types.Kustomization: manifest contents decode to
their Kustomization; opaque bytes do not decode (no manifest in the
claims is stored as raw bytes). -/
def yamlUnmarshal : Content → Except String Kustomization
  | Content.kust k => .ok k
  | Content.raw _ => .error "yaml: could not unmarshal"

/-- copyFile from main.go: MkdirAll on the destination parent, open the
source, create the destination, io.Copy the bytes. -/
def copyFile (s : St) (src dest : String) : Except (String × St) St :=
  match St.mkdirAll s (goDir dest) with
  | .error e => .error e
  | .ok s1 =>
    match s1.fs.readFile src with
    | .error e => .error (e, s1)
    | .ok content =>
      match St.create s1 dest with
      | .error e => .error e
      | .ok s2 => .ok (St.writeFile (s2.addEvent (Event.copy src dest)) dest content)

/-- processFileRef from main.go: a non-local joined path is returned
unchanged; a local joined path satisfying isJsonnetFile whose reference
is relative is rendered through jsonnet into the qualified output path
with ".yml" appended and the reference is rewritten to path + ".yml";
any other local reference is byte-copied and returned unchanged. -/
def processFileRef (env : Env) (j : Jsonnetizer) (root path : String) (s : St) :
    Except (String × St) (String × St) :=
  let qPath := goJoin root path
  if !isLocalFile qPath then .ok (path, s)
  else if isJsonnetFile qPath && !goIsAbs path then
    let outputFile := j.QualifyOutput root path ++ ".yml"
    match St.mkdirAll s (goDir outputFile) with
    | .error e => .error e
    | .ok s1 =>
      let updatedPath := path ++ ".yml"
      let s2 := s1.addEvent (Event.render qPath outputFile)
      match env.render qPath outputFile with
      | .error err => .error (err, s2)
      | .ok content => .ok (updatedPath, St.writeFile s2 outputFile content)
  else
    match copyFile s qPath (j.QualifyOutput root path) with
    | .error e => .error e
    | .ok s1 => .ok (path, s1)

/-- The two reference kinds of processTypes. -/
inductive KustomizeType where
  | ResourceType
  | PluginType
deriving DecidableEq

/-- processResource from main.go, parameterized by the recursive call
into processKustomization: Lstat the joined path (propagating failure),
recurse into a directory keeping the reference unchanged, and defer to
processFileRef otherwise. -/
def processResourceGo (recurse : String → String → St → Except (String × St) St)
    (env : Env) (j : Jsonnetizer) (root path : String) (s : St) :
    Except (String × St) (String × St) :=
  match s.fs.stat (goJoin root path) with
  | .error e => .error (e, s)
  | .ok si =>
    if si.isDir then
      match recurse root path s with
      | .error e => .error e
      | .ok s1 => .ok (path, s1)
    else
      processFileRef env j root path s

/-- The switch statement inside the loop of processTypes: a ResourceType
entry goes through processResource, a PluginType entry through
processPlugin, which is processFileRef. -/
def stepOfType (recurse : String → String → St → Except (String × St) St)
    (env : Env) (j : Jsonnetizer) (root : String) (kustType : KustomizeType)
    (path : String) (s : St) : Except (String × St) (String × St) :=
  match kustType with
  | KustomizeType.ResourceType => processResourceGo recurse env j root path s
  | KustomizeType.PluginType => processFileRef env j root path s

/-- processTypes from main.go, parameterized by the recursive call: walk
the reference list in order; an empty entry fails when reached; each
other entry is dispatched on the list kind and its rewritten reference
collected in order. -/
def processTypesGo (recurse : String → String → St → Except (String × St) St)
    (env : Env) (j : Jsonnetizer) (root : String) (kustType : KustomizeType)
    (paths : List String) (s : St) : Except (String × St) (List String × St) :=
  match paths with
  | [] => .ok ([], s)
  | path :: rest =>
    if path = "" then .error ("empty path as " ++ root, s)
    else
      match stepOfType recurse env j root kustType path s with
      | .error e => .error e
      | .ok us =>
        match processTypesGo recurse env j root kustType rest us.2 with
        | .error e => .error e
        | .ok fs2 => .ok (us.1 :: fs2.1, fs2.2)

/-- findKustFile from main.go: stat root/kustomization.yml, falling back
to root/kustomization.yaml when the first stat fails, erroring when both
fail; the chosen path must be a regular file. -/
def findKustFile (fs : FS) (root : String) : Except String String :=
  let step : Except String (String × StatInfo) :=
    match fs.stat (goJoin root "kustomization.yml") with
    | .ok si => .ok (goJoin root "kustomization.yml", si)
    | .error _ =>
      match fs.stat (goJoin root "kustomization.yaml") with
      | .ok si => .ok (goJoin root "kustomization.yaml", si)
      | .error _ => .error ("could not find kustomization file in " ++ root)
  match step with
  | .error e => .error e
  | .ok psi =>
    if !psi.2.isRegular then .error (psi.1 ++ " is not a file")
    else .ok psi.1

/-- processKustomization from main.go: locate and decode the manifest at
Join(oldRoot, resource), rewrite the resource list (directory entries
recursing through this same function), then the generator and transformer
lists, and write the rebuilt manifest through os.Create at the qualified
output path. The Nat fuel bounds the recursion depth and only introduces
an extra error on exhaustion. -/
def processKustomization (env : Env) (j : Jsonnetizer) :
    Nat → String → String → St → Except (String × St) St
  | 0, _, _, s => .error ("jsonnetize: recursion limit exceeded", s)
  | fuel + 1, oldRoot, resource, s =>
    let root := goJoin oldRoot resource
    match findKustFile s.fs root with
    | .error e => .error (e, s)
    | .ok kust =>
      match s.fs.readFile kust with
      | .error e => .error (e, s)
      | .ok content =>
        match yamlUnmarshal content with
        | .error e => .error (e, s)
        | .ok kustomization =>
          match processTypesGo (processKustomization env j fuel) env j root
              KustomizeType.ResourceType kustomization.resources s with
          | .error e => .error e
          | .ok rs1 =>
            match processTypesGo (processKustomization env j fuel) env j root
                KustomizeType.PluginType kustomization.generators rs1.2 with
            | .error e => .error e
            | .ok gs2 =>
              match processTypesGo (processKustomization env j fuel) env j root
                  KustomizeType.PluginType kustomization.transformers gs2.2 with
              | .error e => .error e
              | .ok ts3 =>
                let rebuilt : Kustomization :=
                  { resources := rs1.1, generators := gs2.1, transformers := ts3.1 }
                let output := j.QualifyOutput kust ""
                match St.create ts3.2 output with
                | .error e => .error e
                | .ok s4 => .ok (St.writeFile s4 output (Content.kust rebuilt))

/-- processResource with the recursion tied to processKustomization at a
given fuel. -/
def processResource (env : Env) (j : Jsonnetizer) (fuel : Nat)
    (root path : String) (s : St) : Except (String × St) (String × St) :=
  processResourceGo (processKustomization env j fuel) env j root path s

/-- processPlugin from main.go: defers to processFileRef. -/
def processPlugin (env : Env) (j : Jsonnetizer) (root path : String) (s : St) :
    Except (String × St) (String × St) :=
  processFileRef env j root path s

/-- processTypes with the recursion tied to processKustomization at a
given fuel. -/
def processTypes (env : Env) (j : Jsonnetizer) (fuel : Nat) (root : String)
    (kustType : KustomizeType) (paths : List String) (s : St) :
    Except (String × St) (List String × St) :=
  processTypesGo (processKustomization env j fuel) env j root kustType paths s

/-- The root-argument handling of main for a stat-ed path: a directory is
taken as the manifest root; for a regular file the source tests
si.Name() != "kustomization.yml" || si.Name() != "kustomization.yaml"
(verbatim, including the disjunction) and terminates fatally when the
test holds, otherwise the containing directory becomes the root. -/
def mainResolveRoot (kustRoot : String) (isDir : Bool) (name : String) :
    Except String String :=
  if !isDir then
    if (name != "kustomization.yml") || (name != "kustomization.yaml") then
      .error "Argument must be a kustomization root or yaml file"
    else .ok (goDir kustRoot)
  else .ok kustRoot

/-- A renderer oracle that always succeeds, producing a fixed artifact
(standing for a source file the external jsonnet process accepts). -/
def envRenderOk : Env := ⟨fun _ _ => .ok (Content.raw [9])⟩

/-- A renderer oracle that always fails (non-zero exit). -/
def envRenderFail : Env := ⟨fun _ _ => .error "jsonnet failed"⟩

/-- The empty world: no directories, no files, no effects yet. -/
def st0 : St := ⟨⟨[], []⟩, []⟩

/-- listHasSuffix agrees with the list suffix relation. -/
theorem listHasSuffix_iff (l suf : List Char) : listHasSuffix l suf = true ↔ suf <:+ l := by
  unfold listHasSuffix
  rw [decide_eq_true_eq]
  constructor
  · intro h
    have hsplit := List.take_append_drop (l.length - suf.length) l
    rw [h] at hsplit
    exact ⟨_, hsplit⟩
  · rintro ⟨t, rfl⟩
    have hl : (t ++ suf).length - suf.length = t.length := by
      simp [List.length_append]
    rw [hl, List.drop_left]

/-- A suffix that avoids a given element lies entirely after the last
occurrence of that element. -/
theorem suffix_skip_past {ext l₂ : List Char} {a : Char} :
    ∀ l₁ : List Char, ext <:+ l₁ ++ a :: l₂ → a ∉ ext → ext <:+ l₂ := by
  intro l₁
  induction l₁ with
  | nil =>
    intro h hmem
    rcases List.suffix_cons_iff.mp h with heq | hsuf
    · exact absurd (heq ▸ List.mem_cons_self a l₂) hmem
    · exact hsuf
  | cons b l₁ ih =>
    intro h hmem
    rcases List.suffix_cons_iff.mp (by simpa using h) with heq | hsuf
    · have : a ∈ ext := by
        rw [heq]
        exact List.mem_cons_of_mem b (by simp)
      exact absurd this hmem
    · exact ih hsuf hmem

/-- The last slash-separated component carries any slash-free suffix of
the whole input. -/
theorem splitSlashAux_last_suffix (ext : List Char) (hslash : '/' ∉ ext) :
    ∀ (cs acc : List Char), ext <:+ (acc.reverse ++ cs) →
    ∃ init lc, splitSlashAux cs acc = init ++ [lc] ∧ ext <:+ lc.data := by
  intro cs
  induction cs with
  | nil =>
    intro acc h
    refine ⟨[], String.mk acc.reverse, rfl, ?_⟩
    simpa using h
  | cons c rest ih =>
    intro acc h
    by_cases hc : c = '/'
    · subst hc
      have hrest : ext <:+ rest := suffix_skip_past acc.reverse h hslash
      obtain ⟨init, lc, heq, hsuf⟩ := ih [] (by simpa using hrest)
      exact ⟨String.mk acc.reverse :: init, lc, by simp [splitSlashAux, heq], hsuf⟩
    · have h' : ext <:+ ((c :: acc).reverse ++ rest) := by
        simpa [List.append_assoc] using h
      obtain ⟨init, lc, heq, hsuf⟩ := ih (c :: acc) h'
      exact ⟨init, lc, by simp [splitSlashAux, hc, heq], hsuf⟩

/-- joinSep on a nonempty tail. -/
theorem joinSep_cons_cons (a b : String) (rest : List String) :
    joinSep (a :: b :: rest) = a ++ "/" ++ joinSep (b :: rest) := rfl

/-- The final element of a separator join is a suffix of the join. -/
theorem joinSep_last_suffix : ∀ (l : List String) (lc : String),
    lc.data <:+ (joinSep (l ++ [lc])).data := by
  intro l
  induction l with
  | nil => intro lc; simp [joinSep]
  | cons a l ih =>
    intro lc
    rw [List.cons_append]
    obtain ⟨b, rest, hbr⟩ : ∃ b rest, l ++ [lc] = b :: rest := by
      cases l with
      | nil => exact ⟨lc, [], rfl⟩
      | cons x xs => exact ⟨x, xs ++ [lc], rfl⟩
    rw [hbr, joinSep_cons_cons, ← hbr, String.data_append]
    exact (ih lc).trans (List.suffix_append _ _)

/-- Pushing a normal final component leaves it on top of the clean
stack. -/
theorem foldl_cleanPush_concat (rooted : Bool) (comps : List String) (lc : String)
    (h1 : ¬(lc = "" ∨ lc = ".")) (h3 : lc ≠ "..") :
    (comps ++ [lc]).foldl (cleanPush rooted) [] =
      lc :: comps.foldl (cleanPush rooted) [] := by
  rw [List.foldl_append]
  simp [cleanPush, h1, h3]

/-- A string whose data carries ".jsonnet" as suffix is nonempty and its
cleaned form still carries the suffix. -/
theorem goClean_keeps_jsonnet_suffix (s : String)
    (h : goHasSuffix s ".jsonnet" = true) :
    goHasSuffix (goClean s) ".jsonnet" = true := by
  have hsuf : ".jsonnet".data <:+ s.data := (listHasSuffix_iff _ _).mp h
  have hextlen : (".jsonnet".data).length = 8 := by decide
  have hne : s ≠ "" := by
    intro hs
    have hle := hsuf.length_le
    rw [hs] at hle
    simp [hextlen] at hle
  obtain ⟨init, lc, heq, hlc⟩ :=
    splitSlashAux_last_suffix ".jsonnet".data (by decide) s.data [] (by simpa using hsuf)
  have hlclen : 8 ≤ lc.data.length := hextlen ▸ hlc.length_le
  have h1 : ¬(lc = "" ∨ lc = ".") := by
    rintro (rfl | rfl) <;> simp_all
  have h3 : lc ≠ ".." := by
    rintro rfl; simp_all
  have hstack : (splitSlash s).foldl (cleanPush (goIsAbs s)) [] =
      lc :: init.foldl (cleanPush (goIsAbs s)) [] := by
    rw [splitSlash, heq, foldl_cleanPush_concat _ _ _ h1 h3]
  have hbody : ".jsonnet".data <:+
      (joinSep ((lc :: init.foldl (cleanPush (goIsAbs s)) []).reverse)).data := by
    rw [List.reverse_cons]
    exact hlc.trans (joinSep_last_suffix _ lc)
  have hbody_ne : joinSep ((lc :: init.foldl (cleanPush (goIsAbs s)) []).reverse) ≠ "" := by
    intro hb
    have hle := hbody.length_le
    rw [hb] at hle
    simp [hextlen] at hle
  unfold goClean
  rw [if_neg hne]
  simp only [hstack]
  rw [if_neg hbody_ne]
  by_cases hr : goIsAbs s = true
  · rw [hr] at hbody
    simp only [hr, if_true]
    unfold goHasSuffix
    rw [listHasSuffix_iff, String.data_append]
    exact hbody.trans (List.suffix_append _ _)
  · rw [Bool.not_eq_true] at hr
    rw [hr] at hbody
    simp only [hr, Bool.false_eq_true, if_false]
    unfold goHasSuffix
    rw [listHasSuffix_iff]
    exact hbody

/-- Joining under a root keeps the ".jsonnet" suffix of the reference. -/
theorem goJoin_keeps_jsonnet_suffix (root path : String)
    (h : goHasSuffix path ".jsonnet" = true) :
    goHasSuffix (goJoin root path) ".jsonnet" = true := by
  have hsuf : ".jsonnet".data <:+ path.data := (listHasSuffix_iff _ _).mp h
  have hextlen : (".jsonnet".data).length = 8 := by decide
  have hpne : path ≠ "" := by
    intro hp
    have hle := hsuf.length_le
    rw [hp] at hle
    simp [hextlen] at hle
  have hjoin1 : joinSep [path] = path := rfl
  by_cases hr : root = ""
  · have e1 : goJoin root path = goClean path := by
      subst hr
      simp [goJoin, goJoinList, hpne, hjoin1]
    rw [e1]
    exact goClean_keeps_jsonnet_suffix _ h
  · have e2 : goJoin root path = goClean (root ++ "/" ++ path) := by
      simp [goJoin, goJoinList, hr, joinSep_cons_cons, hjoin1]
    rw [e2]
    apply goClean_keeps_jsonnet_suffix
    unfold goHasSuffix
    rw [listHasSuffix_iff, String.data_append]
    exact hsuf.trans (List.suffix_append _ _)

/-- A path carrying ".jsonnet" as suffix satisfies the LastIndex test of
isJsonnetFile. -/
theorem isJsonnetFile_of_suffix (q : String)
    (h : goHasSuffix q ".jsonnet" = true) : isJsonnetFile q = true := by
  obtain ⟨t, ht⟩ := (listHasSuffix_iff _ _).mp h
  have hextlen : (".jsonnet".data).length = 8 := by decide
  have hqlen : q.data.length = t.length + 8 := by
    rw [← ht, List.length_append, hextlen]
  unfold isJsonnetFile stringLastIndex
  have hrange : q.data.length - (".jsonnet".data).length + 1 = t.length + 1 := by
    omega
  rw [hrange, List.range_succ, List.filter_append, List.filter_cons]
  have hp : decide ((q.data.drop t.length).take (".jsonnet".data).length
      = ".jsonnet".data) = true := by
    rw [decide_eq_true_eq, ← ht, List.drop_left]
    exact List.take_length _
  rw [hp]
  simp only [if_pos, List.filter_nil]
  rw [List.getLast?_concat, decide_eq_true_eq]
  show ((t.length : Int) = (q.data.length : Int) - 8)
  rw [hqlen]
  push_cast
  omega

/-- A successful processTypesGo yields exactly one output reference per
input reference. -/
theorem processTypesGo_length (recurse : String → String → St → Except (String × St) St)
    (env : Env) (j : Jsonnetizer) (root : String) (kt : KustomizeType) :
    ∀ (paths : List String) (s : St) (out : List String × St),
    processTypesGo recurse env j root kt paths s = .ok out →
    out.1.length = paths.length := by
  intro paths
  induction paths with
  | nil =>
    intro s out h
    simp only [processTypesGo] at h
    cases h
    rfl
  | cons p rest ih =>
    intro s out h
    simp only [processTypesGo] at h
    by_cases hp : p = ""
    · rw [if_pos hp] at h; cases h
    · rw [if_neg hp] at h
      split at h
      · cases h
      · rename_i us hstep
        split at h
        · cases h
        · rename_i f2 hrec
          cases h
          simp [ih us.2 f2 hrec]

/-- A successful processTypesGo maps the i-th input reference to the
i-th output reference through the per-entry processor. -/
theorem processTypesGo_maps (recurse : String → String → St → Except (String × St) St)
    (env : Env) (j : Jsonnetizer) (root : String) (kt : KustomizeType) :
    ∀ (paths : List String) (s : St) (out : List String × St),
    processTypesGo recurse env j root kt paths s = .ok out →
    ∀ i (hi : i < paths.length) (ho : i < out.1.length),
    ∃ s₁ s₂, stepOfType recurse env j root kt (paths.get ⟨i, hi⟩) s₁
      = .ok (out.1.get ⟨i, ho⟩, s₂) := by
  intro paths
  induction paths with
  | nil =>
    intro s out h i hi ho
    exact absurd hi (by simp)
  | cons p rest ih =>
    intro s out h i hi ho
    simp only [processTypesGo] at h
    by_cases hp : p = ""
    · rw [if_pos hp] at h; cases h
    · rw [if_neg hp] at h
      split at h
      · cases h
      · rename_i us hstep
        split at h
        · cases h
        · rename_i f2 hrec
          cases h
          cases i with
          | zero =>
            refine ⟨s, us.2, ?_⟩
            simpa using hstep
          | succ i =>
            have hi' : i < rest.length := Nat.lt_of_succ_lt_succ hi
            have ho' : i < f2.1.length := Nat.lt_of_succ_lt_succ ho
            simpa using ih us.2 f2 hrec i hi' ho'

/-- Reading a file straight after writing it yields the written
content. -/
theorem readFile_writeFile (s : St) (p : String) (c : Content) :
    (St.writeFile s p c).fs.readFile p = .ok c := by
  simp [St.writeFile, FS.setFile, FS.readFile, List.find?]

/-- C1 counterexample: the claim fails on the code. The non-locality test
runs on filepath.Join(root, reference), which collapses the double slash
of a URL and buries its scheme behind the root, so under manifest root
"base" the generator reference https://example.com/plugin.yml (whose own
scheme is https, non-empty and non-file) is treated as a local literal
file: the output tree is mutated (MkdirAll of the mirrored parent) and
resolution fails trying to open it, instead of passing the reference
through unchanged with no filesystem action. -/
theorem nonlocal_generator_ref_not_passed_through :
    urlParseScheme "https://example.com/plugin.yml" = .ok "https" ∧
    processTypes envRenderOk ⟨"base", "out"⟩ 0 "base"
        KustomizeType.PluginType ["https://example.com/plugin.yml"] st0 =
      .error ("open base/https:/example.com/plugin.yml: no such file or directory",
        ⟨⟨["out/base/https:/example.com", "out/base/https:", "out/base", "out"], []⟩,
         [Event.mkdirAll "out/base/https:/example.com"]⟩) ∧
    ([Event.mkdirAll "out/base/https:/example.com"] : List Event) ≠ st0.events :=
  ⟨by rfl, by rfl, by simp [st0]⟩

/-- C1 amended: non-locality is decided on the root-joined path, not the
raw reference. Whenever filepath.Join(root, path) parses as non-local
(non-empty, non-file scheme, or a parse failure), processFileRef returns
the reference unchanged and the world untouched: no filesystem action
and no renderer invocation. (A reference whose own scheme is non-local
is only passed through when the join preserves that scheme, e.g. under
root "."; in the resource list a non-local reference additionally fails
the preceding Lstat.) -/
theorem processFileRef_leaves_nonlocal_joined_path_alone (env : Env) (j : Jsonnetizer)
    (root path : String) (s : St) (h : isLocalFile (goJoin root path) = false) :
    processFileRef env j root path s = .ok (path, s) := by
  simp [processFileRef, h]

/-- C1 amended, witness: at root "." the join keeps the https scheme and
the reference passes through untouched. -/
theorem processFileRef_leaves_nonlocal_joined_path_alone_witness :
    isLocalFile (goJoin "." "https://example.com/plugin.yml") = false ∧
    processFileRef envRenderFail ⟨".", "out"⟩ "." "https://example.com/plugin.yml" st0 =
      .ok ("https://example.com/plugin.yml", st0) :=
  ⟨by rfl, processFileRef_leaves_nonlocal_joined_path_alone _ _ _ _ _ (by rfl)⟩

/-- C2: the claim is right and the code has a slip. isJsonnetFile tests
strings.LastIndex(path, ".jsonnet") == len(path)-8, and both sides are
-1 for any 7-character joined path with no occurrence, so the local
literal reference img.png under root "." (joined path "img.png", 7
characters, no ".jsonnet" suffix, relative) is classified as templated
and sent to the renderer, with the reference rewritten to img.png.yml,
while the claim classifies every such reference as literal. -/
theorem seven_byte_ref_classified_templated :
    goHasSuffix "img.png" ".jsonnet" = false ∧
    goIsAbs "img.png" = false ∧
    isLocalFile "img.png" = true ∧
    isJsonnetFile "img.png" = true ∧
    processFileRef envRenderOk ⟨".", "out"⟩ "." "img.png" st0 =
      .ok ("img.png.yml",
        ⟨⟨["out"], [("out/img.png.yml", Content.raw [9])]⟩,
         [Event.mkdirAll "out", Event.render "img.png" "out/img.png.yml"]⟩) :=
  ⟨by rfl, by rfl, by rfl, by rfl, by rfl⟩

/-- C3 counterexample: the claim fails on the code. The empty-entry check
runs per loop iteration, so every entry before the empty one has already
been replicated when the structural error is raised: with the plugin
list [ab.yml, ""] the file ab.yml is copied into the output tree
(MkdirAll, Create, byte copy all recorded) before the error "empty path
as ." is returned, against "no entry of that list is replicated before
the failure". -/
theorem entry_replicated_before_empty_entry_error :
    processTypes envRenderOk ⟨".", "out"⟩ 0 "."
        KustomizeType.PluginType ["ab.yml", ""]
        ⟨⟨[], [("ab.yml", Content.raw [104, 105])]⟩, []⟩ =
      .error ("empty path as .",
        ⟨⟨["out"],
          [("out/ab.yml", Content.raw [104, 105]), ("ab.yml", Content.raw [104, 105])]⟩,
         [Event.mkdirAll "out", Event.create "out/ab.yml", Event.copy "ab.yml" "out/ab.yml"]⟩) ∧
    ([Event.mkdirAll "out", Event.create "out/ab.yml", Event.copy "ab.yml" "out/ab.yml"] :
      List Event) ≠ [] :=
  ⟨by rfl, by simp⟩

/-- C3 amended: an empty-string entry in a reference list makes
resolution fail with the structural error exactly when the entry is
reached: the empty entry and everything after it are not processed, and
the state at failure is the state after replicating the entries before
it (in particular, an empty entry in first position fails before any
filesystem action for the list). -/
theorem processTypes_fails_on_reaching_empty_entry
    (recurse : String → String → St → Except (String × St) St) (env : Env)
    (j : Jsonnetizer) (root : String) (kt : KustomizeType) :
    ∀ (front rest : List String) (s : St) (out : List String × St),
    processTypesGo recurse env j root kt front s = .ok out →
    processTypesGo recurse env j root kt (front ++ "" :: rest) s =
      .error ("empty path as " ++ root, out.2) := by
  intro front
  induction front with
  | nil =>
    intro rest s out h
    simp only [processTypesGo] at h
    cases h
    simp [processTypesGo]
  | cons p ps ih =>
    intro rest s out h
    simp only [processTypesGo] at h
    by_cases hp : p = ""
    · rw [if_pos hp] at h; cases h
    · rw [if_neg hp] at h
      split at h
      · cases h
      · rename_i us hstep
        split at h
        · cases h
        · rename_i f2 hrec
          cases h
          rw [List.cons_append]
          simp [processTypesGo, hp, hstep, ih rest us.2 f2 hrec]

/-- C3 amended, witness: processing the singleton list [ab.yml] succeeds
after copying the file, and the list [ab.yml, ""] fails with the
structural error carrying exactly that post-copy state. -/
theorem processTypes_fails_on_reaching_empty_entry_witness :
    processTypesGo (fun _ _ s => Except.error ("unused", s)) envRenderOk
        ⟨".", "out"⟩ "." KustomizeType.PluginType ["ab.yml"]
        ⟨⟨[], [("ab.yml", Content.raw [104, 105])]⟩, []⟩ =
      .ok (["ab.yml"],
        ⟨⟨["out"],
          [("out/ab.yml", Content.raw [104, 105]), ("ab.yml", Content.raw [104, 105])]⟩,
         [Event.mkdirAll "out", Event.create "out/ab.yml", Event.copy "ab.yml" "out/ab.yml"]⟩) ∧
    processTypesGo (fun _ _ s => Except.error ("unused", s)) envRenderOk
        ⟨".", "out"⟩ "." KustomizeType.PluginType (["ab.yml"] ++ "" :: [])
        ⟨⟨[], [("ab.yml", Content.raw [104, 105])]⟩, []⟩ =
      .error ("empty path as " ++ ".",
        ⟨⟨["out"],
          [("out/ab.yml", Content.raw [104, 105]), ("ab.yml", Content.raw [104, 105])]⟩,
         [Event.mkdirAll "out", Event.create "out/ab.yml", Event.copy "ab.yml" "out/ab.yml"]⟩) :=
  ⟨by rfl,
   processTypes_fails_on_reaching_empty_entry _ _ _ _ _ ["ab.yml"] [] _ _ (by rfl)⟩

/-- C4: the claim is right and the code has a slip. The non-directory
branch of main tests si.Name() != "kustomization.yml" ||
si.Name() != "kustomization.yaml", a disjunction no name can falsify,
so every regular-file argument is rejected fatally, including the two
recognized manifest filenames the error text of the code says are
acceptable, where the claim expects the containing directory to become
the manifest root. -/
theorem mainResolveRoot_rejects_every_file_argument (kustRoot name : String) :
    mainResolveRoot kustRoot false name =
      .error "Argument must be a kustomization root or yaml file" := by
  have hcond : ((name != "kustomization.yml") || (name != "kustomization.yaml")) = true := by
    rcases eq_or_ne name "kustomization.yml" with h | h
    · subst h; rfl
    · simp [bne_iff_ne, h]
  simp [mainResolveRoot, hcond]

/-- C5: for a local reference (classified on the joined path) with the
".jsonnet" suffix, given as a relative path, a successful processFileRef
rewrites the reference to path + ".yml" and invokes the renderer exactly
once, with the joined source path and a destination equal to the
qualified output path for the reference with ".yml" appended (after
creating the destination parent directory). -/
theorem templated_relative_ref_rendered (env : Env) (j : Jsonnetizer)
    (root path : String) (s : St) (res : String × St)
    (hlocal : isLocalFile (goJoin root path) = true)
    (hext : goHasSuffix path ".jsonnet" = true)
    (hrel : goIsAbs path = false)
    (hok : processFileRef env j root path s = .ok res) :
    res.1 = path ++ ".yml" ∧
    res.2.events = s.events ++
      [Event.mkdirAll (goDir (j.QualifyOutput root path ++ ".yml")),
       Event.render (goJoin root path) (j.QualifyOutput root path ++ ".yml")] := by
  have hj : isJsonnetFile (goJoin root path) = true :=
    isJsonnetFile_of_suffix _ (goJoin_keeps_jsonnet_suffix root path hext)
  simp only [processFileRef, hlocal, hj, hrel, Bool.not_true, Bool.not_false,
    Bool.false_eq_true, if_false, Bool.and_true, if_true] at hok
  split at hok
  · cases hok
  · rename_i s1 hmk
    split at hok
    · cases hok
    · rename_i content hren
      cases hok
      have hs1 : s1.events =
          s.events ++ [Event.mkdirAll (goDir (j.QualifyOutput root path ++ ".yml"))] := by
        unfold St.mkdirAll at hmk
        split at hmk
        · cases hmk
        · cases hmk; rfl
      constructor
      · rfl
      · simp [St.writeFile, St.addEvent, hs1]

/-- C5 witness: the reference config.jsonnet under root "." renders to
out/config.jsonnet.yml and is rewritten to config.jsonnet.yml. -/
theorem templated_relative_ref_rendered_witness :
    isLocalFile (goJoin "." "config.jsonnet") = true ∧
    goHasSuffix "config.jsonnet" ".jsonnet" = true ∧
    goIsAbs "config.jsonnet" = false ∧
    ((("config.jsonnet.yml",
        (⟨⟨["out"], [("out/config.jsonnet.yml", Content.raw [9])]⟩,
          [Event.mkdirAll "out", Event.render "config.jsonnet" "out/config.jsonnet.yml"]⟩ : St)) :
        String × St).1 = "config.jsonnet" ++ ".yml" ∧
      ((("config.jsonnet.yml",
        (⟨⟨["out"], [("out/config.jsonnet.yml", Content.raw [9])]⟩,
          [Event.mkdirAll "out", Event.render "config.jsonnet" "out/config.jsonnet.yml"]⟩ : St)) :
        String × St)).2.events = st0.events ++
        [Event.mkdirAll (goDir (Jsonnetizer.QualifyOutput ⟨".", "out"⟩ "." "config.jsonnet" ++ ".yml")),
         Event.render (goJoin "." "config.jsonnet")
           (Jsonnetizer.QualifyOutput ⟨".", "out"⟩ "." "config.jsonnet" ++ ".yml")]) :=
  ⟨by rfl, by rfl, by rfl,
   templated_relative_ref_rendered envRenderOk ⟨".", "out"⟩ "." "config.jsonnet" st0 _
     (by rfl) (by rfl) (by rfl) (by rfl)⟩

/-- C6: the claim is right and the code has the isJsonnetFile slip. The
local literal reference num.txt (7 characters, not using the template
extension) under root "." is sent to the renderer rather than
byte-copied: with a renderer that accepts the source (its content being
valid template input), replication succeeds, no copy happens, and the
returned reference num.txt.yml differs from the input, against the
claim that the reference is unchanged and the output byte-identical. -/
theorem seven_byte_literal_ref_not_copied :
    goHasSuffix "num.txt" ".jsonnet" = false ∧
    processFileRef envRenderOk ⟨".", "out"⟩ "." "num.txt"
        ⟨⟨[], [("num.txt", Content.raw [52, 50])]⟩, []⟩ =
      .ok ("num.txt.yml",
        ⟨⟨["out"], [("out/num.txt.yml", Content.raw [9]), ("num.txt", Content.raw [52, 50])]⟩,
         [Event.mkdirAll "out", Event.render "num.txt" "out/num.txt.yml"]⟩) ∧
    ("num.txt.yml" : String) ≠ "num.txt" :=
  ⟨by rfl, by rfl, by decide⟩

/-- C7: a successful resolution of a manifest with N resources, M
generators and K transformers writes a rewritten manifest with exactly
N, M and K entries at the mirrored output path, in order: the i-th
output reference arises from processing the i-th input reference of the
same list. -/
theorem resolution_preserves_list_shape (env : Env) (j : Jsonnetizer) (fuel : Nat)
    (oldRoot resource : String) (s s' : St) (kust : String) (k : Kustomization)
    (hfind : findKustFile s.fs (goJoin oldRoot resource) = .ok kust)
    (hread : s.fs.readFile kust = .ok (Content.kust k))
    (hok : processKustomization env j (fuel + 1) oldRoot resource s = .ok s') :
    ∃ k' : Kustomization,
      s'.fs.readFile (j.QualifyOutput kust "") = .ok (Content.kust k') ∧
      k'.resources.length = k.resources.length ∧
      k'.generators.length = k.generators.length ∧
      k'.transformers.length = k.transformers.length ∧
      (∀ i (hi : i < k.resources.length) (ho : i < k'.resources.length), ∃ s₁ s₂,
        stepOfType (processKustomization env j fuel) env j (goJoin oldRoot resource)
          KustomizeType.ResourceType (k.resources.get ⟨i, hi⟩) s₁ =
          .ok (k'.resources.get ⟨i, ho⟩, s₂)) ∧
      (∀ i (hi : i < k.generators.length) (ho : i < k'.generators.length), ∃ s₁ s₂,
        stepOfType (processKustomization env j fuel) env j (goJoin oldRoot resource)
          KustomizeType.PluginType (k.generators.get ⟨i, hi⟩) s₁ =
          .ok (k'.generators.get ⟨i, ho⟩, s₂)) ∧
      (∀ i (hi : i < k.transformers.length) (ho : i < k'.transformers.length), ∃ s₁ s₂,
        stepOfType (processKustomization env j fuel) env j (goJoin oldRoot resource)
          KustomizeType.PluginType (k.transformers.get ⟨i, hi⟩) s₁ =
          .ok (k'.transformers.get ⟨i, ho⟩, s₂)) := by
  simp only [processKustomization, hfind, hread, yamlUnmarshal] at hok
  split at hok
  · cases hok
  · rename_i rs1 h1
    split at hok
    · cases hok
    · rename_i gs2 h2
      split at hok
      · cases hok
      · rename_i ts3 h3
        split at hok
        · cases hok
        · rename_i s4 hcr
          cases hok
          refine ⟨⟨rs1.1, gs2.1, ts3.1⟩, readFile_writeFile _ _ _,
            processTypesGo_length _ _ _ _ _ _ _ _ h1,
            processTypesGo_length _ _ _ _ _ _ _ _ h2,
            processTypesGo_length _ _ _ _ _ _ _ _ h3,
            ?_, ?_, ?_⟩
          · intro i hi ho
            exact processTypesGo_maps _ _ _ _ _ _ _ _ h1 i hi ho
          · intro i hi ho
            exact processTypesGo_maps _ _ _ _ _ _ _ _ h2 i hi ho
          · intro i hi ho
            exact processTypesGo_maps _ _ _ _ _ _ _ _ h3 i hi ho

/-- C7 witness: a manifest at r with resources [ab.yml] resolves into a
rewritten manifest at out/r/kustomization.yml with lists of lengths
1, 0, 0. -/
theorem resolution_preserves_list_shape_witness :
    findKustFile (FS.mk []
        [("r/kustomization.yml", Content.kust ⟨["ab.yml"], [], []⟩),
         ("r/ab.yml", Content.raw [7])]) (goJoin "r" "") = .ok "r/kustomization.yml" ∧
    FS.readFile (FS.mk []
        [("r/kustomization.yml", Content.kust ⟨["ab.yml"], [], []⟩),
         ("r/ab.yml", Content.raw [7])]) "r/kustomization.yml" =
      .ok (Content.kust ⟨["ab.yml"], [], []⟩) ∧
    processKustomization envRenderOk ⟨"r", "out"⟩ 1 "r" ""
        ⟨⟨[], [("r/kustomization.yml", Content.kust ⟨["ab.yml"], [], []⟩),
               ("r/ab.yml", Content.raw [7])]⟩, []⟩ =
      .ok ⟨⟨["out/r", "out"],
            [("out/r/kustomization.yml", Content.kust ⟨["ab.yml"], [], []⟩),
             ("out/r/ab.yml", Content.raw [7]),
             ("r/kustomization.yml", Content.kust ⟨["ab.yml"], [], []⟩),
             ("r/ab.yml", Content.raw [7])]⟩,
           [Event.mkdirAll "out/r", Event.create "out/r/ab.yml",
            Event.copy "r/ab.yml" "out/r/ab.yml", Event.create "out/r/kustomization.yml"]⟩ ∧
    (∃ k' : Kustomization,
      FS.readFile (FS.mk ["out/r", "out"]
          [("out/r/kustomization.yml", Content.kust ⟨["ab.yml"], [], []⟩),
           ("out/r/ab.yml", Content.raw [7]),
           ("r/kustomization.yml", Content.kust ⟨["ab.yml"], [], []⟩),
           ("r/ab.yml", Content.raw [7])])
          (Jsonnetizer.QualifyOutput ⟨"r", "out"⟩ "r/kustomization.yml" "") =
        .ok (Content.kust k') ∧
      k'.resources.length = (["ab.yml"] : List String).length ∧
      k'.generators.length = ([] : List String).length ∧
      k'.transformers.length = ([] : List String).length ∧
      (∀ i (hi : i < (["ab.yml"] : List String).length) (ho : i < k'.resources.length),
        ∃ s₁ s₂,
        stepOfType (processKustomization envRenderOk ⟨"r", "out"⟩ 0) envRenderOk ⟨"r", "out"⟩
          (goJoin "r" "") KustomizeType.ResourceType ((["ab.yml"] : List String).get ⟨i, hi⟩) s₁ =
          .ok (k'.resources.get ⟨i, ho⟩, s₂)) ∧
      (∀ i (hi : i < ([] : List String).length) (ho : i < k'.generators.length), ∃ s₁ s₂,
        stepOfType (processKustomization envRenderOk ⟨"r", "out"⟩ 0) envRenderOk ⟨"r", "out"⟩
          (goJoin "r" "") KustomizeType.PluginType (([] : List String).get ⟨i, hi⟩) s₁ =
          .ok (k'.generators.get ⟨i, ho⟩, s₂)) ∧
      (∀ i (hi : i < ([] : List String).length) (ho : i < k'.transformers.length), ∃ s₁ s₂,
        stepOfType (processKustomization envRenderOk ⟨"r", "out"⟩ 0) envRenderOk ⟨"r", "out"⟩
          (goJoin "r" "") KustomizeType.PluginType (([] : List String).get ⟨i, hi⟩) s₁ =
          .ok (k'.transformers.get ⟨i, ho⟩, s₂))) :=
  ⟨by rfl, by rfl, by rfl,
   resolution_preserves_list_shape envRenderOk ⟨"r", "out"⟩ 0 "r" ""
     ⟨⟨[], [("r/kustomization.yml", Content.kust ⟨["ab.yml"], [], []⟩),
            ("r/ab.yml", Content.raw [7])]⟩, []⟩
     ⟨⟨["out/r", "out"],
       [("out/r/kustomization.yml", Content.kust ⟨["ab.yml"], [], []⟩),
        ("out/r/ab.yml", Content.raw [7]),
        ("r/kustomization.yml", Content.kust ⟨["ab.yml"], [], []⟩),
        ("r/ab.yml", Content.raw [7])]⟩,
      [Event.mkdirAll "out/r", Event.create "out/r/ab.yml",
       Event.copy "r/ab.yml" "out/r/ab.yml", Event.create "out/r/kustomization.yml"]⟩
     "r/kustomization.yml" ⟨["ab.yml"], [], []⟩ (by rfl) (by rfl) (by rfl)⟩

/-- C8: a resource reference naming an existing local directory makes
processResource recurse into that subdirectory; on success the original
reference string is returned unchanged and the rewritten nested manifest
exists at the corresponding output path. -/
theorem directory_resource_recurses_unchanged (env : Env) (j : Jsonnetizer) (fuel : Nat)
    (root path : String) (s : St) (res : String × St)
    (hnofile : s.fs.isFile (goJoin root path) = false)
    (hdir : s.fs.isDir (goJoin root path) = true)
    (hok : processResource env j (fuel + 1) root path s = .ok res) :
    res.1 = path ∧
    ∃ kust k', findKustFile s.fs (goJoin root path) = .ok kust ∧
      res.2.fs.readFile (j.QualifyOutput kust "") = .ok (Content.kust k') := by
  simp only [processResource, processResourceGo, FS.stat, hnofile, hdir,
    Bool.false_eq_true, if_false, if_true] at hok
  split at hok
  · cases hok
  · rename_i s1 hrec
    cases hok
    refine ⟨rfl, ?_⟩
    simp only [processKustomization, yamlUnmarshal] at hrec
    split at hrec
    · cases hrec
    · rename_i kust hfind
      split at hrec
      · cases hrec
      · rename_i content hread
        split at hrec
        · cases hrec
        · rename_i k hum
          split at hrec
          · cases hrec
          · rename_i rs1 h1
            split at hrec
            · cases hrec
            · rename_i gs2 h2
              split at hrec
              · cases hrec
              · rename_i ts3 h3
                split at hrec
                · cases hrec
                · rename_i s4 hcr
                  cases hrec
                  exact ⟨kust, ⟨rs1.1, gs2.1, ts3.1⟩, hfind, readFile_writeFile _ _ _⟩

/-- C8 witness: the resource sub of the manifest at r is a directory
holding its own manifest; processResource keeps the reference "sub" and
the rewritten nested manifest appears at out/r/sub/kustomization.yml. -/
theorem directory_resource_recurses_unchanged_witness :
    FS.isFile ⟨["r/sub", "out/r/sub"],
        [("r/kustomization.yml", Content.kust ⟨["sub"], [], []⟩),
         ("r/sub/kustomization.yml", Content.kust ⟨[], [], []⟩)]⟩ (goJoin "r" "sub") = false ∧
    FS.isDir ⟨["r/sub", "out/r/sub"],
        [("r/kustomization.yml", Content.kust ⟨["sub"], [], []⟩),
         ("r/sub/kustomization.yml", Content.kust ⟨[], [], []⟩)]⟩ (goJoin "r" "sub") = true ∧
    processResource envRenderOk ⟨"r", "out"⟩ 1 "r" "sub"
        ⟨⟨["r/sub", "out/r/sub"],
          [("r/kustomization.yml", Content.kust ⟨["sub"], [], []⟩),
           ("r/sub/kustomization.yml", Content.kust ⟨[], [], []⟩)]⟩, []⟩ =
      .ok ("sub",
        ⟨⟨["r/sub", "out/r/sub"],
          [("out/r/sub/kustomization.yml", Content.kust ⟨[], [], []⟩),
           ("r/kustomization.yml", Content.kust ⟨["sub"], [], []⟩),
           ("r/sub/kustomization.yml", Content.kust ⟨[], [], []⟩)]⟩,
         [Event.create "out/r/sub/kustomization.yml"]⟩) ∧
    ((("sub",
        (⟨⟨["r/sub", "out/r/sub"],
          [("out/r/sub/kustomization.yml", Content.kust ⟨[], [], []⟩),
           ("r/kustomization.yml", Content.kust ⟨["sub"], [], []⟩),
           ("r/sub/kustomization.yml", Content.kust ⟨[], [], []⟩)]⟩,
         [Event.create "out/r/sub/kustomization.yml"]⟩ : St)) : String × St).1 = "sub" ∧
      ∃ kust k', findKustFile (FS.mk ["r/sub", "out/r/sub"]
          [("r/kustomization.yml", Content.kust ⟨["sub"], [], []⟩),
           ("r/sub/kustomization.yml", Content.kust ⟨[], [], []⟩)]) (goJoin "r" "sub") =
          .ok kust ∧
        FS.readFile (FS.mk ["r/sub", "out/r/sub"]
          [("out/r/sub/kustomization.yml", Content.kust ⟨[], [], []⟩),
           ("r/kustomization.yml", Content.kust ⟨["sub"], [], []⟩),
           ("r/sub/kustomization.yml", Content.kust ⟨[], [], []⟩)])
          (Jsonnetizer.QualifyOutput ⟨"r", "out"⟩ kust "") = .ok (Content.kust k')) :=
  ⟨by rfl, by rfl, by rfl,
   directory_resource_recurses_unchanged envRenderOk ⟨"r", "out"⟩ 0 "r" "sub"
     ⟨⟨["r/sub", "out/r/sub"],
       [("r/kustomization.yml", Content.kust ⟨["sub"], [], []⟩),
        ("r/sub/kustomization.yml", Content.kust ⟨[], [], []⟩)]⟩, []⟩ _
     (by rfl) (by rfl) (by rfl)⟩

/-- C9: the manifest file is located by stat-ing the two recognized
literal names in fixed priority: kustomization.yml first (used whenever
it exists, in particular even when kustomization.yaml also exists), then
kustomization.yaml; when neither exists the no-manifest structural error
is returned. -/
theorem findKustFile_priority_and_missing (fs : FS) (root : String) :
    (fs.isFile (goJoin root "kustomization.yml") = true →
      findKustFile fs root = .ok (goJoin root "kustomization.yml")) ∧
    (fs.isFile (goJoin root "kustomization.yml") = false →
     fs.isDir (goJoin root "kustomization.yml") = false →
     fs.isFile (goJoin root "kustomization.yaml") = true →
      findKustFile fs root = .ok (goJoin root "kustomization.yaml")) ∧
    (fs.isFile (goJoin root "kustomization.yml") = false →
     fs.isDir (goJoin root "kustomization.yml") = false →
     fs.isFile (goJoin root "kustomization.yaml") = false →
     fs.isDir (goJoin root "kustomization.yaml") = false →
      findKustFile fs root = .error ("could not find kustomization file in " ++ root)) := by
  refine ⟨?_, ?_, ?_⟩
  · intro h1
    simp [findKustFile, FS.stat, h1]
  · intro h1 h2 h3
    simp [findKustFile, FS.stat, h1, h2, h3]
  · intro h1 h2 h3 h4
    simp [findKustFile, FS.stat, h1, h2, h3, h4]

/-- C9 witness: with both manifest filenames present the .yml one wins;
in an empty world the no-manifest error is reported. -/
theorem findKustFile_priority_and_missing_witness :
    (FS.isFile ⟨[], [("r/kustomization.yml", Content.raw [1]),
                     ("r/kustomization.yaml", Content.raw [2])]⟩
        (goJoin "r" "kustomization.yml") = true ∧
      findKustFile ⟨[], [("r/kustomization.yml", Content.raw [1]),
                         ("r/kustomization.yaml", Content.raw [2])]⟩ "r" =
        .ok (goJoin "r" "kustomization.yml")) ∧
    findKustFile ⟨[], []⟩ "nosuch" =
      .error ("could not find kustomization file in " ++ "nosuch") :=
  ⟨⟨by rfl, (findKustFile_priority_and_missing _ "r").1 (by rfl)⟩,
   (findKustFile_priority_and_missing ⟨[], []⟩ "nosuch").2.2 (by rfl) (by rfl)
     (by rfl) (by rfl)⟩

/-- C10: writing the rewritten manifest performs no directory creation:
when the three reference lists resolve without touching the mirrored
output directory of the manifest (for instance because all three are
empty) and that directory does not exist at write time, resolution fails
at the os.Create of the manifest write with the no-such-file error. -/
theorem manifest_write_requires_existing_output_dir (env : Env) (j : Jsonnetizer)
    (fuel : Nat) (oldRoot resource : String) (s : St) (kust : String)
    (k : Kustomization) (rs gs ts : List String × St)
    (hfind : findKustFile s.fs (goJoin oldRoot resource) = .ok kust)
    (hread : s.fs.readFile kust = .ok (Content.kust k))
    (h1 : processTypesGo (processKustomization env j fuel) env j (goJoin oldRoot resource)
        KustomizeType.ResourceType k.resources s = .ok rs)
    (h2 : processTypesGo (processKustomization env j fuel) env j (goJoin oldRoot resource)
        KustomizeType.PluginType k.generators rs.2 = .ok gs)
    (h3 : processTypesGo (processKustomization env j fuel) env j (goJoin oldRoot resource)
        KustomizeType.PluginType k.transformers gs.2 = .ok ts)
    (hnotdir : ts.2.fs.isDir (j.QualifyOutput kust "") = false)
    (hnoparent : ts.2.fs.isDir (goDir (j.QualifyOutput kust "")) = false) :
    processKustomization env j (fuel + 1) oldRoot resource s =
      .error ("open " ++ j.QualifyOutput kust "" ++ ": no such file or directory", ts.2) := by
  simp only [processKustomization, hfind, hread, yamlUnmarshal, h1, h2, h3]
  simp [St.create, hnotdir, hnoparent]

/-- C10 witness: a manifest with three empty lists under root r and
output root out fails at the manifest write because out/r does not
exist. -/
theorem manifest_write_requires_existing_output_dir_witness :
    findKustFile (FS.mk [] [("r/kustomization.yml", Content.kust ⟨[], [], []⟩)])
        (goJoin "r" "") = .ok "r/kustomization.yml" ∧
    FS.readFile (FS.mk [] [("r/kustomization.yml", Content.kust ⟨[], [], []⟩)])
        "r/kustomization.yml" = .ok (Content.kust ⟨[], [], []⟩) ∧
    FS.isDir (FS.mk [] [("r/kustomization.yml", Content.kust ⟨[], [], []⟩)])
        (Jsonnetizer.QualifyOutput ⟨"r", "out"⟩ "r/kustomization.yml" "") = false ∧
    FS.isDir (FS.mk [] [("r/kustomization.yml", Content.kust ⟨[], [], []⟩)])
        (goDir (Jsonnetizer.QualifyOutput ⟨"r", "out"⟩ "r/kustomization.yml" "")) = false ∧
    processKustomization envRenderOk ⟨"r", "out"⟩ 1 "r" ""
        ⟨⟨[], [("r/kustomization.yml", Content.kust ⟨[], [], []⟩)]⟩, []⟩ =
      .error ("open " ++ Jsonnetizer.QualifyOutput ⟨"r", "out"⟩ "r/kustomization.yml" "" ++
          ": no such file or directory",
        ⟨⟨[], [("r/kustomization.yml", Content.kust ⟨[], [], []⟩)]⟩, []⟩) :=
  ⟨by rfl, by rfl, by rfl, by rfl,
   manifest_write_requires_existing_output_dir envRenderOk ⟨"r", "out"⟩ 0 "r" ""
     ⟨⟨[], [("r/kustomization.yml", Content.kust ⟨[], [], []⟩)]⟩, []⟩
     "r/kustomization.yml" ⟨[], [], []⟩
     ([], ⟨⟨[], [("r/kustomization.yml", Content.kust ⟨[], [], []⟩)]⟩, []⟩)
     ([], ⟨⟨[], [("r/kustomization.yml", Content.kust ⟨[], [], []⟩)]⟩, []⟩)
     ([], ⟨⟨[], [("r/kustomization.yml", Content.kust ⟨[], [], []⟩)]⟩, []⟩)
     (by rfl) (by rfl) (by rfl) (by rfl) (by rfl) (by rfl) (by rfl)⟩
